import Mathlib

/-!
Verification development for the tetsuo/couchdb Go client library.

The Go sources are shallowly embedded: request construction, query-string
parameter building, JSON marshalling of request bodies, response-status
classification and JSON unmarshalling of response bodies become executable
Lean functions; the HTTP transport is an explicit function argument.

Response bodies are represented by the raw byte string together with the
result of Go's JSON syntactic parse of that string (`Option JsonVal`,
`none` when the body is not valid JSON); handlers consume each component
exactly where the source does (`string(body)` uses the raw text,
`json.Unmarshal` uses the parse).
-/

namespace Couch

/-- JSON values as produced/consumed by `encoding/json` for the payload
shapes this client uses (numbers restricted to integers, which covers
every numeric literal the claims mention). -/
inductive JsonVal where
  | null
  | bool (b : Bool)
  | num (n : Int)
  | str (s : String)
  | arr (xs : List JsonVal)
  | obj (fields : List (String × JsonVal))

/-- Lowercase hex digit, as used by `encoding/json` for `\u00XX` escapes. -/
def hexLower (n : Nat) : String :=
  (["0", "1", "2", "3", "4", "5", "6", "7", "8", "9",
    "a", "b", "c", "d", "e", "f"].getD n "0")

/-- Per-character escaping of Go's `encoding/json` string encoder
(default HTML-escaping behaviour: `<`, `>`, `&`, U+2028, U+2029 are
escaped as `\uXXXX`; control characters below 0x20 as `\u00XX`). -/
def goEscapeChar (c : Char) : String :=
  if c = '"' then "\\\""
  else if c = '\\' then "\\\\"
  else if c = '\n' then "\\n"
  else if c = '\r' then "\\r"
  else if c = '\t' then "\\t"
  else if c.toNat < 0x20 then
    "\\u00" ++ hexLower (c.toNat / 16) ++ hexLower (c.toNat % 16)
  else if c = '<' then "\\u003c"
  else if c = '>' then "\\u003e"
  else if c = '&' then "\\u0026"
  else if c.toNat = 0x2028 then "\\u2028"
  else if c.toNat = 0x2029 then "\\u2029"
  else String.singleton c

/-- `encoding/json` encoding of a Go string: a double-quoted,
escaped JSON string literal. -/
def goEncodeString (s : String) : String :=
  "\"" ++ String.join (s.data.map goEscapeChar) ++ "\""

mutual

/-- `json.Marshal` of a `JsonVal` (Go renders maps used in this codebase
with their single key, slices as arrays, strings via `goEncodeString`). -/
def jsonEncode : JsonVal → String
  | .null => "null"
  | .bool true => "true"
  | .bool false => "false"
  | .num n => toString n
  | .str s => goEncodeString s
  | .arr xs => "[" ++ jsonEncodeList xs ++ "]"
  | .obj fs => "\x7b" ++ jsonEncodeFields fs ++ "\x7d"

/-- Comma-separated encoding of array elements. -/
def jsonEncodeList : List JsonVal → String
  | [] => ""
  | [x] => jsonEncode x
  | x :: y :: xs => jsonEncode x ++ "," ++ jsonEncodeList (y :: xs)

/-- Comma-separated encoding of object members. -/
def jsonEncodeFields : List (String × JsonVal) → String
  | [] => ""
  | [(k, v)] => goEncodeString k ++ ":" ++ jsonEncode v
  | (k, v) :: f :: fs =>
      goEncodeString k ++ ":" ++ jsonEncode v ++ "," ++ jsonEncodeFields (f :: fs)

end

/-- Hexadecimal digit test (for validating `\uXXXX` escapes). -/
def isHexDigitChar (c : Char) : Bool :=
  c.isDigit || ('a' ≤ c && c ≤ 'f') || ('A' ≤ c && c ≤ 'F')

/-- Scanner for the interior of a JSON string literal (after the opening
quote): accepts exactly when the remaining characters form a legal body
terminated by a closing quote at the very end (RFC 8259 grammar). -/
def jsonStrBody : List Char → Bool
  | [] => false
  | c :: rest =>
      if c = '"' then rest.isEmpty
      else if c = '\\' then
        match rest with
        | [] => false
        | e :: rest2 =>
            if e = 'u' then
              match rest2 with
              | h1 :: h2 :: h3 :: h4 :: rest3 =>
                  isHexDigitChar h1 && isHexDigitChar h2 && isHexDigitChar h3 &&
                  isHexDigitChar h4 && jsonStrBody rest3
              | _ => false
            else
              (e = '"' || e = '\\' || e = '/' || e = 'b' || e = 'f' ||
               e = 'n' || e = 'r' || e = 't') && jsonStrBody rest2
      else decide (0x20 ≤ c.toNat) && jsonStrBody rest

/-- A string is a valid JSON string literal when it is a double-quoted,
correctly escaped sequence per the JSON grammar. -/
def isValidJsonStringLit (s : String) : Bool :=
  match s.data with
  | '"' :: rest => jsonStrBody rest
  | _ => false

/-- Uppercase hex digit, as used by `net/url` percent-escaping. -/
def hexUpper (n : Nat) : String :=
  (["0", "1", "2", "3", "4", "5", "6", "7", "8", "9",
    "A", "B", "C", "D", "E", "F"].getD n "0")

/-- UTF-8 bytes of a string, as numbers. -/
def strUTF8Bytes (s : String) : List Nat :=
  s.toUTF8.toList.map (fun b => b.toNat)

/-- `net/url` shouldEscape for mode encodePathSegment (the mode used by
`url.PathEscape`): alphanumerics and `-_.~` never escape; of the
sub-delims `$&+,/:;=?@` exactly `/;,?` escape; every other byte escapes. -/
def shouldEscapePathSeg (b : Nat) : Bool :=
  if (97 ≤ b && b ≤ 122) || (65 ≤ b && b ≤ 90) || (48 ≤ b && b ≤ 57) then
    false
  else if b = 45 || b = 95 || b = 46 || b = 126 then
    -- '-' '_' '.' '~'
    false
  else if b = 36 || b = 38 || b = 43 || b = 58 || b = 61 || b = 64 then
    -- '$' '&' '+' ':' '=' '@' stay literal in a path segment
    false
  else
    true

/-- `%XX` escape of one byte. -/
def pctByte (b : Nat) : String :=
  "%" ++ hexUpper (b / 16) ++ hexUpper (b % 16)

/-- `url.PathEscape`: percent-escape a string so it can appear in a URL
path segment. -/
def pathEscape (s : String) : String :=
  String.join ((strUTF8Bytes s).map (fun b =>
    if shouldEscapePathSeg b then pctByte b else String.singleton (Char.ofNat b)))

/-- `strings.TrimRight(s, "/")`: remove all trailing `/` characters. -/
def trimTrailingSlashes (s : String) : String :=
  String.mk ((s.data.reverse.dropWhile (fun c => c = '/')).reverse)

/-- `NewClient` stores `strings.TrimRight(baseURL, "/")` as the client's
base URL. -/
def newClientBaseURL (baseURL : String) : String :=
  trimTrailingSlashes baseURL

/-- `doRequest`: `reqURL := fmt.Sprintf("%s%s", c.baseURL, path)`. -/
def doRequestURL (baseURL path : String) : String :=
  baseURL ++ path

/-- The URL a client constructed by `NewClient baseURL` issues for `path`. -/
def clientRequestURL (baseURL path : String) : String :=
  doRequestURL (newClientBaseURL baseURL) path

/-- Replace-or-add on an association list: the behaviour of both
`url.Values.Set` and `http.Header.Set` (single value per key). -/
def assocSet : List (String × String) → String → String → List (String × String)
  | [], k, v => [(k, v)]
  | (k', v') :: rest, k, v =>
      if k' = k then (k, v) :: rest else (k', v') :: assocSet rest k v

/-- A query string under construction (`url.Values`, single-valued). -/
abbrev Query := List (String × String)

/-- `url.Values.Set`. -/
def querySet (q : Query) (k v : String) : Query :=
  assocSet q k v

/-- An HTTP cookie (`http.Cookie`), restricted to the fields this client
reads and writes. -/
structure Cookie where
  name : String
  value : String
deriving DecidableEq

/-- An outgoing HTTP request: the verb, the path, the query parameters
(kept structured; `url.Values.Encode` percent-escaping is not re-modelled
since every claim speaks about parameter names and values), the body
bytes, the headers and the cookies. -/
structure GoRequest where
  method : String
  path : String
  query : Query
  body : Option String
  headers : List (String × String)
  cookies : List Cookie
deriving DecidableEq

/-- `http.Header.Set` on a request. -/
def GoRequest.setHeader (req : GoRequest) (k v : String) : GoRequest :=
  { req with headers := assocSet req.headers k v }

/-- `http.Request.AddCookie`: appends the cookie. -/
def GoRequest.addCookie (req : GoRequest) (c : Cookie) : GoRequest :=
  { req with cookies := req.cookies ++ [c] }

/-- Header lookup (first value for the name). -/
def GoRequest.getHeader (req : GoRequest) (k : String) : Option String :=
  req.headers.lookup k

/-- Standard base64 alphabet. -/
def base64Chars : List Char :=
  "ABCDEFGHIJKLMNOPQRSTUVWXYZabcdefghijklmnopqrstuvwxyz0123456789+/".data

/-- One base64 output character. -/
def b64c (n : Nat) : String :=
  String.singleton (base64Chars.getD n 'A')

/-- Standard base64 encoding of a byte sequence (with `=` padding), as
used by `http.Request.SetBasicAuth`. -/
def base64Encode : List Nat → String
  | [] => ""
  | [a] => b64c (a / 4) ++ b64c (a % 4 * 16) ++ "=="
  | [a, b] => b64c (a / 4) ++ b64c (a % 4 * 16 + b / 16) ++ b64c (b % 16 * 4) ++ "="
  | a :: b :: c :: rest =>
      b64c (a / 4) ++ b64c (a % 4 * 16 + b / 16) ++ b64c (b % 16 * 4 + c / 64) ++
      b64c (c % 64) ++ base64Encode rest

/-- `req.SetBasicAuth(user, pass)` sets `Authorization` to this value. -/
def basicAuthHeaderValue (username password : String) : String :=
  "Basic " ++ base64Encode (strUTF8Bytes (username ++ ":" ++ password))

/-- The four authenticator variants of client.go, each carrying exactly
the fields of its Go struct. -/
inductive Authenticator where
  | basic (username password : String)
  | cookie (c : Option Cookie)
  | proxy (roles : List String) (username token : String)
  | jwt (token : String)
deriving DecidableEq

/-- The `Authenticate` methods of the four variants.

* Basic: `req.SetBasicAuth(a.Username, a.Password)`.
* Cookie: `req.AddCookie(a.Cookie)` when the cookie is non-nil.
* Proxy: sets `X-Auth-CouchDB-UserName`; sets `X-Auth-CouchDB-Roles` to
  `strings.Join(a.Roles, ",")` only when `len(a.Roles) > 0`; sets
  `X-Auth-CouchDB-Token` only when `a.Token != ""`.
* JWT: sets `Authorization: Bearer <token>` when the token is non-empty.

All four return a nil error unconditionally, so the embedding is total. -/
def authenticate : Authenticator → GoRequest → GoRequest
  | .basic u p, req => req.setHeader "Authorization" (basicAuthHeaderValue u p)
  | .cookie none, req => req
  | .cookie (some c), req => req.addCookie c
  | .proxy roles u tok, req =>
      let req := req.setHeader "X-Auth-CouchDB-UserName" u
      let req :=
        if 0 < roles.length then
          req.setHeader "X-Auth-CouchDB-Roles" (String.intercalate "," roles)
        else req
      if tok ≠ "" then req.setHeader "X-Auth-CouchDB-Token" tok else req
  | .jwt tok, req =>
      if tok ≠ "" then req.setHeader "Authorization" ("Bearer " ++ tok) else req

/-- `doRequest`'s credential and header step: when `len(opts) > 0` the
last option is invoked and the authenticator it produces is applied
(`opts[len(opts)-1]()`); then `Content-Type: application/json` is
force-set. Each `RequestOption` is represented by the authenticator it
returns (the Go closures are pure constructors). -/
def doRequestPrepare (opts : List Authenticator) (req : GoRequest) : GoRequest :=
  let req :=
    match opts.getLast? with
    | some a => authenticate a req
    | none => req
  req.setHeader "Content-Type" "application/json"

/-- A fully received HTTP response: the status code, the body bytes, and
the result of Go's JSON syntactic parse of those bytes (`none` when the
body is not valid JSON). -/
structure GoResponse where
  status : Nat
  raw : String
  json : Option JsonVal

/-- The transport (`http.Client.Do` through `doRequest`): either a
transport-level error or a response. HTTP error statuses arrive as
ordinary responses. -/
abbrev Transport := GoRequest → Except String GoResponse

/-- The error values the resource services produce, one constructor per
exit path of the sources. -/
inductive CouchErr where
  /-- `fmt.Errorf("<op>: %w", err)` around a failed dispatch. -/
  | transport (op : String) (e : String)
  /-- `return nil, err` without wrapping (AllDocs keys branch). -/
  | transportRaw (e : String)
  /-- `fmt.Errorf("request failed with status %d: %s", code, body)`. -/
  | httpStatus (status : Nat) (body : String)
  /-- `fmt.Errorf("<op>: %s - %s", errResp.Error, errResp.Reason)`. -/
  | opError (op error reason : String)
  /-- The distinct not-found condition of single-entity fetches. -/
  | notFound (msg : String)
  /-- `failed to unmarshal ...` on a success-status body. -/
  | decodeFail (what : String)
  /-- An error wrapped by a calling method (`fmt.Errorf("<op>: %w", err)`
  around another service call). -/
  | wrapped (op : String) (e : CouchErr)
deriving DecidableEq

/-- The `{error, reason}` envelope (client.go `ErrorResponse`). -/
structure ErrorResponse where
  Error : String
  Reason : String
deriving DecidableEq

/-- `json.Unmarshal` into a `string` struct field: absent or JSON null
leaves the zero value, a JSON string sets it, any other shape errors. -/
def jStr (fs : List (String × JsonVal)) (k : String) : Option String :=
  match fs.lookup k with
  | none => some ""
  | some .null => some ""
  | some (.str s) => some s
  | some _ => none

/-- `json.Unmarshal` into an `int` struct field. -/
def jInt (fs : List (String × JsonVal)) (k : String) : Option Int :=
  match fs.lookup k with
  | none => some 0
  | some .null => some 0
  | some (.num n) => some n
  | some _ => none

/-- `json.Unmarshal` into a `bool` struct field. -/
def jBool (fs : List (String × JsonVal)) (k : String) : Option Bool :=
  match fs.lookup k with
  | none => some false
  | some .null => some false
  | some (.bool b) => some b
  | some _ => none

/-- `json.Unmarshal` into a `[]string` struct field (nil and empty
slices coincide in the `List String` model). -/
def jStrList (fs : List (String × JsonVal)) (k : String) : Option (List String) :=
  match fs.lookup k with
  | none => some []
  | some .null => some []
  | some (.arr xs) =>
      xs.mapM (fun v => match v with | .str s => some s | _ => none)
  | some _ => none

/-- `json.Unmarshal` into a `map[string]any` struct field (nil and empty
maps coincide in the field-list model). -/
def jMap (fs : List (String × JsonVal)) (k : String) :
    Option (List (String × JsonVal)) :=
  match fs.lookup k with
  | none => some []
  | some .null => some []
  | some (.obj gs) => some gs
  | some _ => none

/-- `json.Unmarshal(body, &errResp)` for `ErrorResponse`: fails when the
body is not valid JSON, the top level is not an object or null, or a
present field has the wrong type; absent fields keep their zero value. -/
def goUnmarshalErrorResponse : Option JsonVal → Option ErrorResponse
  | some .null => some ⟨"", ""⟩
  | some (.obj fs) =>
      match jStr fs "error", jStr fs "reason" with
      | some e, some r => some ⟨e, r⟩
      | _, _ => none
  | _ => none

/-- Classification shared by every non-success branch of the sources:
decode the `{error, reason}` envelope; when that decode fails, report the
raw status and raw body verbatim. -/
def classifyFailure (op : String) (status : Nat) (raw : String)
    (json : Option JsonVal) : CouchErr :=
  match goUnmarshalErrorResponse json with
  | none => .httpStatus status raw
  | some e => .opError op e.Error e.Reason

/-- `DatabaseResponse` of databases.go. -/
structure DatabaseResponse where
  OK : Bool
  Error : String
  Reason : String
deriving DecidableEq

/-- `json.Unmarshal` for `DatabaseResponse`. -/
def goUnmarshalDatabaseResponse : Option JsonVal → Option DatabaseResponse
  | some .null => some ⟨false, "", ""⟩
  | some (.obj fs) =>
      match jBool fs "ok", jStr fs "error", jStr fs "reason" with
      | some ok, some e, some r => some ⟨ok, e, r⟩
      | _, _, _ => none
  | _ => none

/-- `DocumentResponse` of documents.go. -/
structure DocumentResponse where
  OK : Bool
  ID : String
  Rev : String
deriving DecidableEq

/-- `json.Unmarshal` for `DocumentResponse`. -/
def goUnmarshalDocumentResponse : Option JsonVal → Option DocumentResponse
  | some .null => some ⟨false, "", ""⟩
  | some (.obj fs) =>
      match jBool fs "ok", jStr fs "id", jStr fs "rev" with
      | some ok, some i, some r => some ⟨ok, i, r⟩
      | _, _, _ => none
  | _ => none

/-- `DatabaseInfoCluster` of databases.go. -/
structure DatabaseInfoCluster where
  N : Int
  Q : Int
  R : Int
  W : Int
deriving DecidableEq

/-- `DatabaseInfoSizes` of databases.go. -/
structure DatabaseInfoSizes where
  Active : Int
  File : Int
  External : Int
deriving DecidableEq

/-- `DatabaseInfoProps` of databases.go. -/
structure DatabaseInfoProps where
  Partitioned : Bool
deriving DecidableEq

/-- `DatabaseInfo` of databases.go. -/
structure DatabaseInfo where
  Cluster : DatabaseInfoCluster
  CompactRunning : Bool
  DBName : String
  DiskFormatVersion : Int
  DocCount : Int
  DocDelCount : Int
  InstanceStartTime : String
  PurgeSeq : String
  Sizes : DatabaseInfoSizes
  UpdateSeq : String
  Props : DatabaseInfoProps
deriving DecidableEq

/-- `json.Unmarshal` for the nested cluster object. -/
def goUnmarshalCluster : JsonVal → Option DatabaseInfoCluster
  | .null => some ⟨0, 0, 0, 0⟩
  | .obj fs =>
      match jInt fs "n", jInt fs "q", jInt fs "r", jInt fs "w" with
      | some n, some q, some r, some w => some ⟨n, q, r, w⟩
      | _, _, _, _ => none
  | _ => none

/-- `json.Unmarshal` for the nested sizes object. -/
def goUnmarshalSizes : JsonVal → Option DatabaseInfoSizes
  | .null => some ⟨0, 0, 0⟩
  | .obj fs =>
      match jInt fs "active", jInt fs "file", jInt fs "external" with
      | some a, some f, some e => some ⟨a, f, e⟩
      | _, _, _ => none
  | _ => none

/-- `json.Unmarshal` for the nested props object. -/
def goUnmarshalProps : JsonVal → Option DatabaseInfoProps
  | .null => some ⟨false⟩
  | .obj fs =>
      match jBool fs "partitioned" with
      | some p => some ⟨p⟩
      | none => none
  | _ => none

/-- `json.Unmarshal` into a nested struct field: absent keeps the zero
value, otherwise the sub-decoder runs. -/
def jSub {α : Type} (zero : α) (dec : JsonVal → Option α)
    (fs : List (String × JsonVal)) (k : String) : Option α :=
  match fs.lookup k with
  | none => some zero
  | some v => dec v

/-- `json.Unmarshal` for `DatabaseInfo`. -/
def goUnmarshalDatabaseInfo : Option JsonVal → Option DatabaseInfo
  | some .null =>
      some ⟨⟨0, 0, 0, 0⟩, false, "", 0, 0, 0, "", "", ⟨0, 0, 0⟩, "", ⟨false⟩⟩
  | some (.obj fs) => do
      let cluster ← jSub ⟨0, 0, 0, 0⟩ goUnmarshalCluster fs "cluster"
      let compact ← jBool fs "compact_running"
      let dbName ← jStr fs "db_name"
      let dfv ← jInt fs "disk_format_version"
      let docCount ← jInt fs "doc_count"
      let docDel ← jInt fs "doc_del_count"
      let start ← jStr fs "instance_start_time"
      let purge ← jStr fs "purge_seq"
      let sizes ← jSub ⟨0, 0, 0⟩ goUnmarshalSizes fs "sizes"
      let useq ← jStr fs "update_seq"
      let props ← jSub ⟨false⟩ goUnmarshalProps fs "props"
      some ⟨cluster, compact, dbName, dfv, docCount, docDel, start, purge,
            sizes, useq, props⟩
  | _ => none

/-- `json.Unmarshal` into a bare `map[string]any` (GetDocument's result):
null leaves the nil map, an object gives its members, anything else
errors. -/
def goUnmarshalAnyMap : Option JsonVal → Option (List (String × JsonVal))
  | some .null => some []
  | some (.obj fs) => some fs
  | _ => none

/-- `json.Unmarshal` into a bare `string` (configuration values). -/
def goUnmarshalString : Option JsonVal → Option String
  | some .null => some ""
  | some (.str s) => some s
  | _ => none

/-- `CreateDatabase` response handling (databases.go): success statuses
are 201 Created and 200 OK; any other status is classified through the
envelope-or-verbatim path; a success body decodes to `DatabaseResponse`. -/
def createDatabaseHandle (status : Nat) (raw : String) (json : Option JsonVal) :
    Except CouchErr DatabaseResponse :=
  if status ≠ 201 ∧ status ≠ 200 then
    .error (classifyFailure "failed to create database" status raw json)
  else
    match goUnmarshalDatabaseResponse json with
    | none => .error (.decodeFail "failed to unmarshal response")
    | some r => .ok r

/-- `UpdateDocument` response handling (documents.go): success statuses
are 201 Created and 202 Accepted. -/
def updateDocumentHandle (status : Nat) (raw : String) (json : Option JsonVal) :
    Except CouchErr DocumentResponse :=
  if status ≠ 201 ∧ status ≠ 202 then
    .error (classifyFailure "failed to update document" status raw json)
  else
    match goUnmarshalDocumentResponse json with
    | none => .error (.decodeFail "failed to unmarshal response")
    | some r => .ok r

/-- `GetDatabase` response handling (databases.go): a 404 is answered
with the distinct not-found error before any other classification; other
non-200 statuses go through the envelope-or-verbatim path. -/
def getDatabaseHandle (dbName : String) (status : Nat) (raw : String)
    (json : Option JsonVal) : Except CouchErr DatabaseInfo :=
  if status = 404 then
    .error (.notFound ("database not found: " ++ dbName))
  else if status ≠ 200 then
    .error (classifyFailure "failed to get database" status raw json)
  else
    match goUnmarshalDatabaseInfo json with
    | none => .error (.decodeFail "failed to unmarshal database info")
    | some info => .ok info

/-- `GetDocument` response handling (documents.go): 404 is the distinct
not-found condition, keyed by database and document id. -/
def getDocumentHandle (dbName docID : String) (status : Nat) (raw : String)
    (json : Option JsonVal) : Except CouchErr (List (String × JsonVal)) :=
  if status = 404 then
    .error (.notFound ("document not found: " ++ dbName ++ "/" ++ docID))
  else if status ≠ 200 then
    .error (classifyFailure "failed to get document" status raw json)
  else
    match goUnmarshalAnyMap json with
    | none => .error (.decodeFail "failed to unmarshal document")
    | some doc => .ok doc

/-- `User` of users.go (`utype` embeds the Go field `Type`, whose name is
reserved in Lean; its JSON tag is `type`). -/
structure User where
  ID : String
  Rev : String
  Name : String
  utype : String
  Roles : List String
  Password : String
  Salt : String
  DerivedKey : String
  Iterations : Int
  PasswordScheme : String
deriving DecidableEq

/-- `json.Unmarshal` for `User`. -/
def goUnmarshalUser : Option JsonVal → Option User
  | some .null => some ⟨"", "", "", "", [], "", "", "", 0, ""⟩
  | some (.obj fs) => do
      let id ← jStr fs "_id"
      let rev ← jStr fs "_rev"
      let name ← jStr fs "name"
      let ty ← jStr fs "type"
      let roles ← jStrList fs "roles"
      let pw ← jStr fs "password"
      let salt ← jStr fs "salt"
      let dk ← jStr fs "derived_key"
      let iter ← jInt fs "iterations"
      let scheme ← jStr fs "password_scheme"
      some ⟨id, rev, name, ty, roles, pw, salt, dk, iter, scheme⟩
  | _ => none

/-- `GetUser` response handling (users.go): 404 is the distinct
not-found condition, keyed by the login name. -/
def getUserHandle (name : String) (status : Nat) (raw : String)
    (json : Option JsonVal) : Except CouchErr User :=
  if status = 404 then
    .error (.notFound ("user not found: " ++ name))
  else if status ≠ 200 then
    .error (classifyFailure "failed to get user" status raw json)
  else
    match goUnmarshalUser json with
    | none => .error (.decodeFail "failed to unmarshal user")
    | some u => .ok u

/-- The request `SetConfigurationValue` issues (configuration.go):
`PUT /_node/{node}/_config/{section}/{key}` whose body is
`json.Marshal(value)` — for a Go string value, its JSON string literal. -/
def setConfigurationValueRequest (nodeName sectionName key value : String) : GoRequest :=
  { method := "PUT"
    path := "/_node/" ++ pathEscape nodeName ++ "/_config/" ++
            pathEscape sectionName ++ "/" ++ pathEscape key
    query := []
    body := some (goEncodeString value)
    headers := []
    cookies := [] }

/-- `SetConfigurationValue` response handling: only 200 succeeds; the
success body decodes as a bare JSON string, the prior value. -/
def setConfigurationValueHandle (status : Nat) (raw : String)
    (json : Option JsonVal) : Except CouchErr String :=
  if status ≠ 200 then
    .error (classifyFailure "failed to set configuration value" status raw json)
  else
    match goUnmarshalString json with
    | none => .error (.decodeFail "failed to unmarshal old value")
    | some oldValue => .ok oldValue

/-- `BulkDocItem` of databases.go. -/
structure BulkDocItem where
  ID : String
  OK : Bool
  Rev : String
deriving DecidableEq

/-- `BulkDocsResponse` of databases.go. -/
abbrev BulkDocsResponse := List BulkDocItem

/-- `json.Unmarshal` of one bulk-response array element. -/
def goUnmarshalBulkItem : JsonVal → Option BulkDocItem
  | .null => some ⟨"", false, ""⟩
  | .obj fs =>
      match jStr fs "id", jBool fs "ok", jStr fs "rev" with
      | some i, some ok, some r => some ⟨i, ok, r⟩
      | _, _, _ => none
  | _ => none

/-- `json.Unmarshal` for `BulkDocsResponse` (a slice: null leaves nil,
an array decodes element-wise). -/
def goUnmarshalBulkDocs : Option JsonVal → Option BulkDocsResponse
  | some .null => some []
  | some (.arr xs) => xs.mapM goUnmarshalBulkItem
  | _ => none

/-- The request `BulkInsert` issues (databases.go):
`POST /{db}/_bulk_docs` with body `json.Marshal(map[string]any{"docs": docs})`. -/
def bulkInsertRequest (dbName : String) (docs : List JsonVal) : GoRequest :=
  { method := "POST"
    path := "/" ++ pathEscape dbName ++ "/_bulk_docs"
    query := []
    body := some (jsonEncode (.obj [("docs", .arr docs)]))
    headers := []
    cookies := [] }

/-- The request `BulkUpdate` issues (databases.go): same verb, path and
body construction as `BulkInsert`. -/
def bulkUpdateRequest (dbName : String) (docs : List JsonVal) : GoRequest :=
  { method := "POST"
    path := "/" ++ pathEscape dbName ++ "/_bulk_docs"
    query := []
    body := some (jsonEncode (.obj [("docs", .arr docs)]))
    headers := []
    cookies := [] }

/-- `BulkInsert` response handling: success statuses 201 and 200; the
failure messages are prefixed "failed to bulk insert". -/
def bulkInsertHandle (status : Nat) (raw : String) (json : Option JsonVal) :
    Except CouchErr BulkDocsResponse :=
  if status ≠ 201 ∧ status ≠ 200 then
    .error (classifyFailure "failed to bulk insert" status raw json)
  else
    match goUnmarshalBulkDocs json with
    | none => .error (.decodeFail "failed to unmarshal response")
    | some r => .ok r

/-- `BulkUpdate` response handling: success statuses 201 and 200; the
failure messages are prefixed "failed to bulk update". -/
def bulkUpdateHandle (status : Nat) (raw : String) (json : Option JsonVal) :
    Except CouchErr BulkDocsResponse :=
  if status ≠ 201 ∧ status ≠ 200 then
    .error (classifyFailure "failed to bulk update" status raw json)
  else
    match goUnmarshalBulkDocs json with
    | none => .error (.decodeFail "failed to unmarshal response")
    | some r => .ok r

/-- `BulkInsert` end to end over an explicit transport. -/
def bulkInsertFlow (dbName : String) (docs : List JsonVal)
    (transport : Transport) : Except CouchErr BulkDocsResponse :=
  match transport (bulkInsertRequest dbName docs) with
  | .error e => .error (.transport "failed to bulk insert" e)
  | .ok r => bulkInsertHandle r.status r.raw r.json

/-- `BulkUpdate` end to end over an explicit transport. -/
def bulkUpdateFlow (dbName : String) (docs : List JsonVal)
    (transport : Transport) : Except CouchErr BulkDocsResponse :=
  match transport (bulkUpdateRequest dbName docs) with
  | .error e => .error (.transport "failed to bulk update" e)
  | .ok r => bulkUpdateHandle r.status r.raw r.json

/-- Forget the operation-name prefix carried by an error (the only
textual difference between BulkInsert's and BulkUpdate's failure paths). -/
def eraseOpName : CouchErr → CouchErr
  | .transport _ e => .transport "" e
  | .opError _ e r => .opError "" e r
  | .wrapped _ e => .wrapped "" e
  | e => e

/-- `eraseOpName` lifted to operation results. -/
def eraseOpRes (r : Except CouchErr BulkDocsResponse) :
    Except CouchErr BulkDocsResponse :=
  match r with
  | .error e => .error (eraseOpName e)
  | .ok v => .ok v

/-- `AllDocsOptions` of databases.go (the `url:"-"` tag on `Keys` marks
its special POST handling). -/
structure AllDocsOptions where
  Conflicts : Bool
  Descending : Bool
  EndKey : String
  EndKeyDocID : String
  IncludeDocs : Bool
  InclusiveEnd : Bool
  Key : String
  Keys : List String
  Limit : Int
  Skip : Int
  StartKey : String
  StartKeyDocID : String
  UpdateSeq : Bool
deriving DecidableEq

/-- The all-zero `AllDocsOptions` (every field at its Go zero value). -/
def AllDocsOptions.zero : AllDocsOptions :=
  ⟨false, false, "", "", false, false, "", [], 0, 0, "", "", false⟩

/-- The query parameters `AllDocs` builds in its GET branch, in source
order. String-typed keys are wrapped by `fmt.Sprintf("\"%s\"", x)` —
bare quotes around the raw string, with no JSON escaping; numeric
options by `fmt.Sprintf("%d", n)`; zero values are omitted. -/
def allDocsQuery (o : AllDocsOptions) : Query :=
  let q : Query := []
  let q := if o.Conflicts then querySet q "conflicts" "true" else q
  let q := if o.Descending then querySet q "descending" "true" else q
  let q := if o.EndKey ≠ "" then querySet q "endkey" ("\"" ++ o.EndKey ++ "\"") else q
  let q := if o.EndKeyDocID ≠ "" then querySet q "endkey_docid" o.EndKeyDocID else q
  let q := if o.IncludeDocs then querySet q "include_docs" "true" else q
  let q := if o.InclusiveEnd then querySet q "inclusive_end" "true" else q
  let q := if o.Key ≠ "" then querySet q "key" ("\"" ++ o.Key ++ "\"") else q
  let q := if 0 < o.Limit then querySet q "limit" (toString o.Limit) else q
  let q := if 0 < o.Skip then querySet q "skip" (toString o.Skip) else q
  let q := if o.StartKey ≠ "" then querySet q "startkey" ("\"" ++ o.StartKey ++ "\"") else q
  let q := if o.StartKeyDocID ≠ "" then querySet q "startkey_docid" o.StartKeyDocID else q
  let q := if o.UpdateSeq then querySet q "update_seq" "true" else q
  q

/-- The POST request `AllDocs` issues when `len(options.Keys) > 0`: only
`include_docs` may appear in the query string; the keys travel in the
body as `json.Marshal(map[string]any{"keys": options.Keys})`. -/
def allDocsKeysRequest (dbName : String) (o : AllDocsOptions) : GoRequest :=
  let q : Query := []
  let q := if o.IncludeDocs then querySet q "include_docs" "true" else q
  { method := "POST"
    path := "/" ++ pathEscape dbName ++ "/_all_docs"
    query := q
    body := some (jsonEncode (.obj [("keys", .arr (o.Keys.map JsonVal.str))]))
    headers := []
    cookies := [] }

/-- The GET request `AllDocs` issues when no keys are supplied. -/
def allDocsGetRequest (dbName : String) (options : Option AllDocsOptions) : GoRequest :=
  { method := "GET"
    path := "/" ++ pathEscape dbName ++ "/_all_docs"
    query := match options with | some o => allDocsQuery o | none => []
    body := none
    headers := []
    cookies := [] }

/-- `AllDocsRow` of databases.go. -/
structure AllDocsRow where
  ID : String
  Key : String
  Value : List (String × JsonVal)
  Doc : List (String × JsonVal)

/-- `AllDocsResponse` of databases.go. -/
structure AllDocsResponse where
  Offset : Int
  Rows : List AllDocsRow
  TotalRows : Int
  UpdateSeq : String

/-- `json.Unmarshal` of one `_all_docs` row. -/
def goUnmarshalAllDocsRow : JsonVal → Option AllDocsRow
  | .null => some ⟨"", "", [], []⟩
  | .obj fs => do
      let id ← jStr fs "id"
      let key ← jStr fs "key"
      let value ← jMap fs "value"
      let doc ← jMap fs "doc"
      some ⟨id, key, value, doc⟩
  | _ => none

/-- `json.Unmarshal` for `AllDocsResponse`. -/
def goUnmarshalAllDocsResponse : Option JsonVal → Option AllDocsResponse
  | some .null => some ⟨0, [], 0, ""⟩
  | some (.obj fs) => do
      let off ← jInt fs "offset"
      let rows ←
        match fs.lookup "rows" with
        | none => some []
        | some .null => some []
        | some (.arr xs) => xs.mapM goUnmarshalAllDocsRow
        | some _ => none
      let tot ← jInt fs "total_rows"
      let useq ← jStr fs "update_seq"
      some ⟨off, rows, tot, useq⟩
  | _ => none

/-- How one `AllDocs` call ends: a decoded response, an error value, or
a runtime panic (nil-pointer dereference). -/
inductive AllDocsOutcome where
  | ok (r : AllDocsResponse)
  | fail (e : CouchErr)
  | nilDerefPanic

/-- `AllDocs`' success-status classification and decode (the code after
the response resource has been acquired). -/
def allDocsHandle (status : Nat) (raw : String) (json : Option JsonVal) :
    AllDocsOutcome :=
  if status ≠ 200 then
    .fail (classifyFailure "failed to get all docs" status raw json)
  else
    match goUnmarshalAllDocsResponse json with
    | none => .fail (.decodeFail "failed to unmarshal response")
    | some r => .ok r

/-- The shared tail of `AllDocs` after the keys/no-keys branch, operating
on the OUTER `resp`/`err` pair declared before the branch:
`if err != nil` returns the wrapped error; then `defer resp.Body.Close()`
evaluates `resp.Body` — a nil-pointer dereference, hence a panic, when
the outer `resp` is still nil. -/
def allDocsAfterBranch (resp : Option GoResponse) (err : Option String) :
    AllDocsOutcome :=
  match err with
  | some e => .fail (.transport "failed to get all docs" e)
  | none =>
      match resp with
      | none => .nilDerefPanic
      | some r => allDocsHandle r.status r.raw r.json

/-- `DatabaseService.AllDocs` (databases.go lines 396-497). The function
declares `var resp *http.Response; var err error` before the branch. In
the keys branch the source writes `resp, err := s.client.doRequest(...)`:
the `:=` declares fresh variables that shadow the outer pair, so a
transport error returns the raw error from inside the branch, while on
success the branch falls through with the OUTER pair still (nil, nil).
The GET branch assigns the outer pair with `=`. -/
def allDocs (dbName : String) (options : Option AllDocsOptions)
    (transport : Transport) : AllDocsOutcome :=
  match options with
  | some o =>
      if o.Keys ≠ [] then
        match transport (allDocsKeysRequest dbName o) with
        | .error e => .fail (.transportRaw e)
        | .ok _ => allDocsAfterBranch none none
      else
        match transport (allDocsGetRequest dbName (some o)) with
        | .ok r => allDocsAfterBranch (some r) none
        | .error e => allDocsAfterBranch none (some e)
  | none =>
      match transport (allDocsGetRequest dbName none) with
      | .ok r => allDocsAfterBranch (some r) none
      | .error e => allDocsAfterBranch none (some e)

/-- `ViewOptions` of the design-document service (`EndKey`, `Key`,
`StartKey` are Go `any` values, JSON-encoded into the query; `Reduce` is
tri-state). -/
structure ViewOptions where
  Conflicts : Bool
  Descending : Bool
  EndKey : Option JsonVal
  EndKeyDocID : String
  Group : Bool
  GroupLevel : Int
  IncludeDocs : Bool
  InclusiveEnd : Bool
  Key : Option JsonVal
  Keys : List JsonVal
  Limit : Int
  Reduce : Option Bool
  Skip : Int
  Sorted : Bool
  Stable : Bool
  Stale : String
  StartKey : Option JsonVal
  StartKeyDocID : String
  Update : String
  UpdateSeq : Bool

/-- The all-zero `ViewOptions`. -/
def ViewOptions.zero : ViewOptions :=
  ⟨false, false, none, "", false, 0, false, false, none, [], 0, none, 0,
   false, false, "", none, "", "", false⟩

/-- The query parameters `QueryView` builds, in source order: `any`-typed
keys go through `json.Marshal` (full JSON encoding, quoted and escaped
for strings, bare for numbers and arrays). -/
def queryViewQuery (o : ViewOptions) : Query :=
  let q : Query := []
  let q := if o.Conflicts then querySet q "conflicts" "true" else q
  let q := if o.Descending then querySet q "descending" "true" else q
  let q := match o.EndKey with | some v => querySet q "endkey" (jsonEncode v) | none => q
  let q := if o.EndKeyDocID ≠ "" then querySet q "endkey_docid" o.EndKeyDocID else q
  let q := if o.Group then querySet q "group" "true" else q
  let q := if 0 < o.GroupLevel then querySet q "group_level" (toString o.GroupLevel) else q
  let q := if o.IncludeDocs then querySet q "include_docs" "true" else q
  let q := if o.InclusiveEnd then querySet q "inclusive_end" "true" else q
  let q := match o.Key with | some v => querySet q "key" (jsonEncode v) | none => q
  let q := if 0 < o.Limit then querySet q "limit" (toString o.Limit) else q
  let q :=
    match o.Reduce with
    | some true => querySet q "reduce" "true"
    | some false => querySet q "reduce" "false"
    | none => q
  let q := if 0 < o.Skip then querySet q "skip" (toString o.Skip) else q
  let q := if o.Sorted then querySet q "sorted" "true" else q
  let q := if o.Stable then querySet q "stable" "true" else q
  let q := if o.Stale ≠ "" then querySet q "stale" o.Stale else q
  let q := match o.StartKey with | some v => querySet q "startkey" (jsonEncode v) | none => q
  let q := if o.StartKeyDocID ≠ "" then querySet q "startkey_docid" o.StartKeyDocID else q
  let q := if o.Update ≠ "" then querySet q "update" o.Update else q
  let q := if o.UpdateSeq then querySet q "update_seq" "true" else q
  q

/-- The `User` document `UpdateUser` marshals and PUTs (users.go lines
1055-1077): the id is the fixed prefix plus the login name, the password
is set only when non-nil, nil roles are replaced by the empty list (Go's
nil and empty `[]string` coincide in the `List String` model). -/
def updateUserDoc (name rev : String) (password : Option String)
    (roles : List String) : User :=
  { ID := "org.couchdb.user:" ++ name
    Rev := rev
    Name := name
    utype := "user"
    Roles := roles
    Password := match password with | some p => p | none => ""
    Salt := ""
    DerivedKey := ""
    Iterations := 0
    PasswordScheme := "" }

/-- The `User` document `UpdateRoles` marshals and PUTs (users.go lines
1205-1219): the four password-hash fields are copied from the fetched
current user; the roles are the new roles argument. -/
def updateRolesDoc (currentUser : User) (name rev : String)
    (roles : List String) : User :=
  { ID := "org.couchdb.user:" ++ name
    Rev := rev
    Name := name
    utype := "user"
    Roles := roles
    Password := ""
    Salt := currentUser.Salt
    DerivedKey := currentUser.DerivedKey
    Iterations := currentUser.Iterations
    PasswordScheme := currentUser.PasswordScheme }

/-- `UpdateRoles` up to the PUT it issues: first `GetUser` (a fetch
failure is wrapped "failed to get user" and returned), then the document
built from the fetched user. -/
def updateRolesIssuedDoc (fetch : Except CouchErr User) (name rev : String)
    (roles : List String) : Except CouchErr User :=
  match fetch with
  | .error e => .error (.wrapped "failed to get user" e)
  | .ok currentUser => .ok (updateRolesDoc currentUser name rev roles)

/-- `UpdatePassword` up to the PUT it issues: first `GetUser`, then
`UpdateUser(name, rev, &newPassword, user.Roles)` — the issued document. -/
def updatePasswordIssuedDoc (fetch : Except CouchErr User)
    (name rev newPassword : String) : Except CouchErr User :=
  match fetch with
  | .error e => .error (.wrapped "failed to get user" e)
  | .ok user => .ok (updateUserDoc name rev (some newPassword) user.Roles)

/-- Does the last character equal `/`? -/
def lastIsSlash (s : String) : Bool :=
  match s.data.getLast? with
  | some c => c = '/'
  | none => false

lemma head?_dropWhile_eq_some {α : Type} (p : α → Bool) (l : List α) (c : α)
    (h : (l.dropWhile p).head? = some c) : p c = false := by
  induction l with
  | nil => simp at h
  | cons a l ih =>
      rw [List.dropWhile_cons] at h
      by_cases hp : p a = true
      · exact ih (by simpa [hp] using h)
      · simp only [Bool.not_eq_true] at hp
        simp [hp] at h
        subst h
        exact hp

lemma trimTrailingSlashes_concat_slash (u : String) :
    trimTrailingSlashes (u ++ "/") = trimTrailingSlashes u := by
  unfold trimTrailingSlashes
  have hdata : (u ++ "/").data = u.data ++ ['/'] := by
    cases u
    rfl
  rw [hdata, List.reverse_append]
  simp [List.dropWhile_cons]

lemma lastIsSlash_trim (u : String) : lastIsSlash (trimTrailingSlashes u) = false := by
  unfold lastIsSlash trimTrailingSlashes
  have hmk : (String.mk ((u.data.reverse.dropWhile (fun c => c = '/')).reverse)).data
      = (u.data.reverse.dropWhile (fun c => c = '/')).reverse := rfl
  rw [hmk, List.getLast?_reverse]
  cases hh : (u.data.reverse.dropWhile (fun c => c = '/')).head? with
  | none => rfl
  | some c => exact head?_dropWhile_eq_some (fun c => c = '/') u.data.reverse c hh

/-- C10: `NewClient` strips all trailing slash characters from the base
address and `doRequest` concatenates the stored base with the path, so a
client constructed from `u` and one constructed from `u` with a trailing
slash appended issue any path's request to the identical URL. -/
theorem newClient_trailing_slash_invariant (u path : String) :
    newClientBaseURL (u ++ "/") = newClientBaseURL u ∧
    clientRequestURL (u ++ "/") path = clientRequestURL u path ∧
    lastIsSlash (newClientBaseURL u) = false := by
  refine ⟨trimTrailingSlashes_concat_slash u, ?_, lastIsSlash_trim u⟩
  unfold clientRequestURL doRequestURL newClientBaseURL
  rw [trimTrailingSlashes_concat_slash u]

/-- C2: `doRequest` with zero request options applies no authenticator —
the prepared request is the incoming request with only `Content-Type`
set, its cookies untouched; with one or more options, the result
coincides with applying only the option in the last position, so the
effect of every earlier selector is absent. -/
theorem doRequest_last_selector_wins (req : GoRequest)
    (earlier : List Authenticator) (last : Authenticator) :
    doRequestPrepare [] req = req.setHeader "Content-Type" "application/json" ∧
    (doRequestPrepare [] req).cookies = req.cookies ∧
    doRequestPrepare (earlier ++ [last]) req = doRequestPrepare [last] req := by
  refine ⟨rfl, rfl, ?_⟩
  unfold doRequestPrepare
  rw [List.getLast?_concat]
  rfl

lemma lookup_assocSet_self (l : List (String × String)) (k v : String) :
    (assocSet l k v).lookup k = some v := by
  induction l with
  | nil => simp [assocSet, List.lookup]
  | cons h t ih =>
      obtain ⟨k', v'⟩ := h
      unfold assocSet
      by_cases hk : k' = k
      · simp [hk, List.lookup]
      · simp only [if_neg hk, List.lookup]
        have : (k == k') = false := by
          simp [beq_iff_eq]
          exact fun h => hk h.symm
        rw [this]
        exact ih

lemma lookup_assocSet_ne (l : List (String × String)) (k v k' : String)
    (h : k' ≠ k) : (assocSet l k v).lookup k' = l.lookup k' := by
  induction l with
  | nil =>
      simp only [assocSet, List.lookup]
      rw [beq_eq_false_iff_ne.mpr h]
  | cons hd t ih =>
      obtain ⟨k₀, v₀⟩ := hd
      unfold assocSet
      by_cases hk : k₀ = k
      · subst hk
        simp only [if_pos rfl, List.lookup]
        rw [beq_eq_false_iff_ne.mpr h]
      · simp only [if_neg hk, List.lookup]
        rw [ih]

lemma setHeader_getHeader_self (req : GoRequest) (k v : String) :
    (req.setHeader k v).getHeader k = some v :=
  lookup_assocSet_self req.headers k v

lemma setHeader_getHeader_ne (req : GoRequest) (k v k' : String) (h : k' ≠ k) :
    (req.setHeader k v).getHeader k' = req.getHeader k' :=
  lookup_assocSet_ne req.headers k v k' h

/-- C4 (counterexample): a `ProxyAuthenticator` with an empty roles list
and an empty token sets only the username header — one header, not
three; the roles and token headers are absent. -/
theorem proxyAuth_not_always_three_headers :
    (authenticate (.proxy [] "u" "") ⟨"GET", "/", [], none, [], []⟩).headers
      = [("X-Auth-CouchDB-UserName", "u")] ∧
    ((authenticate (.proxy [] "u" "") ⟨"GET", "/", [], none, [], []⟩).headers).length = 1 ∧
    (authenticate (.proxy [] "u" "") ⟨"GET", "/", [], none, [], []⟩).getHeader
      "X-Auth-CouchDB-Roles" = none ∧
    (authenticate (.proxy [] "u" "") ⟨"GET", "/", [], none, [], []⟩).getHeader
      "X-Auth-CouchDB-Token" = none := by
  refine ⟨rfl, rfl, ?_, ?_⟩ <;> decide

lemma authenticate_proxy_username (roles : List String) (u tok : String)
    (req : GoRequest) :
    (authenticate (.proxy roles u tok) req).getHeader "X-Auth-CouchDB-UserName"
      = some u := by
  simp only [authenticate]
  split_ifs with htok hroles hroles
  · rw [setHeader_getHeader_ne _ _ _ _ (by decide),
      setHeader_getHeader_ne _ _ _ _ (by decide)]
    exact setHeader_getHeader_self req _ _
  · rw [setHeader_getHeader_ne _ _ _ _ (by decide)]
    exact setHeader_getHeader_self req _ _
  · rw [setHeader_getHeader_ne _ _ _ _ (by decide)]
    exact setHeader_getHeader_self req _ _
  · exact setHeader_getHeader_self req _ _

lemma authenticate_proxy_roles (roles : List String) (u tok : String)
    (req : GoRequest) :
    (authenticate (.proxy roles u tok) req).getHeader "X-Auth-CouchDB-Roles"
      = (if 0 < roles.length then some (String.intercalate "," roles)
         else req.getHeader "X-Auth-CouchDB-Roles") := by
  simp only [authenticate]
  split_ifs with htok hroles hroles
  · rw [setHeader_getHeader_ne _ _ _ _ (by decide)]
    exact setHeader_getHeader_self _ _ _
  · rw [setHeader_getHeader_ne _ _ _ _ (by decide)]
    exact setHeader_getHeader_ne _ _ _ _ (by decide)
  · exact setHeader_getHeader_self _ _ _
  · exact setHeader_getHeader_ne _ _ _ _ (by decide)

lemma authenticate_proxy_token (roles : List String) (u tok : String)
    (req : GoRequest) :
    (authenticate (.proxy roles u tok) req).getHeader "X-Auth-CouchDB-Token"
      = (if tok ≠ "" then some tok else req.getHeader "X-Auth-CouchDB-Token") := by
  simp only [authenticate]
  split_ifs with htok hroles hroles
  · exact setHeader_getHeader_self _ _ _
  · exact setHeader_getHeader_self _ _ _
  · rw [setHeader_getHeader_ne _ _ _ _ (by decide)]
    exact setHeader_getHeader_ne _ _ _ _ (by decide)
  · exact setHeader_getHeader_ne _ _ _ _ (by decide)

lemma authenticate_proxy_other (roles : List String) (u tok name : String)
    (req : GoRequest) (h1 : name ≠ "X-Auth-CouchDB-UserName")
    (h2 : name ≠ "X-Auth-CouchDB-Roles") (h3 : name ≠ "X-Auth-CouchDB-Token") :
    (authenticate (.proxy roles u tok) req).getHeader name = req.getHeader name := by
  simp only [authenticate]
  split_ifs with htok hroles hroles
  · rw [setHeader_getHeader_ne _ _ _ _ h3, setHeader_getHeader_ne _ _ _ _ h2,
      setHeader_getHeader_ne _ _ _ _ h1]
  · rw [setHeader_getHeader_ne _ _ _ _ h3, setHeader_getHeader_ne _ _ _ _ h1]
  · rw [setHeader_getHeader_ne _ _ _ _ h2, setHeader_getHeader_ne _ _ _ _ h1]
  · rw [setHeader_getHeader_ne _ _ _ _ h1]

/-- C4 (amended): `ProxyAuthenticator.Authenticate` always sets the proxy
username header; it sets the comma-joined roles header exactly when the
roles list is non-empty and the shared-secret token header exactly when
the token is non-empty; it alters no other header and no cookie. -/
theorem proxyAuth_headers (roles : List String) (u tok : String) (req : GoRequest) :
    (authenticate (.proxy roles u tok) req).getHeader "X-Auth-CouchDB-UserName"
      = some u ∧
    (authenticate (.proxy roles u tok) req).getHeader "X-Auth-CouchDB-Roles"
      = (if 0 < roles.length then some (String.intercalate "," roles)
         else req.getHeader "X-Auth-CouchDB-Roles") ∧
    (authenticate (.proxy roles u tok) req).getHeader "X-Auth-CouchDB-Token"
      = (if tok ≠ "" then some tok else req.getHeader "X-Auth-CouchDB-Token") ∧
    (∀ name : String, name ≠ "X-Auth-CouchDB-UserName" →
      name ≠ "X-Auth-CouchDB-Roles" → name ≠ "X-Auth-CouchDB-Token" →
      (authenticate (.proxy roles u tok) req).getHeader name = req.getHeader name) ∧
    (authenticate (.proxy roles u tok) req).cookies = req.cookies := by
  refine ⟨authenticate_proxy_username roles u tok req,
    authenticate_proxy_roles roles u tok req,
    authenticate_proxy_token roles u tok req,
    fun name h1 h2 h3 => authenticate_proxy_other roles u tok name req h1 h2 h3,
    ?_⟩
  simp only [authenticate]
  split_ifs <;> rfl

/-- C4 (amended, witness): at roles `["a", "b"]`, username `u`, token
`t`, applied to a request carrying one unrelated header. -/
theorem proxyAuth_headers_witness :
    (authenticate (.proxy ["a", "b"] "u" "t")
        ⟨"GET", "/", [], none, [("Other", "v")], []⟩).getHeader
      "X-Auth-CouchDB-Roles" = some "a,b" ∧
    (authenticate (.proxy ["a", "b"] "u" "t")
        ⟨"GET", "/", [], none, [("Other", "v")], []⟩).getHeader "Other" = some "v" := by
  have h := proxyAuth_headers ["a", "b"] "u" "t"
    ⟨"GET", "/", [], none, [("Other", "v")], []⟩
  refine ⟨?_, ?_⟩
  · rw [h.2.1]
    decide
  · rw [h.2.2.2.1 "Other" (by decide) (by decide) (by decide)]
    decide

/-- C3 (counterexample): `AllDocs` given the string key `a"b` emits the
parameter value `"a"b"` — the raw string wrapped in quotes with no
escaping — which is not a valid JSON string literal. -/
theorem allDocs_quoted_key_not_json_literal :
    (allDocsQuery { AllDocsOptions.zero with Key := "a\"b" }).lookup "key"
      = some "\"a\"b\"" ∧
    isValidJsonStringLit "\"a\"b\"" = false := by
  refine ⟨rfl, ?_⟩
  decide

/-- A string none of whose characters require JSON escaping (no control
characters, no quote, no backslash). -/
def noEscapeNeeded (s : String) : Bool :=
  s.data.all (fun c => decide (0x20 ≤ c.toNat) && !(c = '"' : Bool) && !(c = '\\' : Bool))

lemma jsonStrBody_append_quote (l : List Char)
    (h : ∀ c ∈ l, 0x20 ≤ c.toNat ∧ c ≠ '"' ∧ c ≠ '\\') :
    jsonStrBody (l ++ ['"']) = true := by
  induction l with
  | nil => rfl
  | cons c l ih =>
      obtain ⟨h1, h2, h3⟩ := h c (List.mem_cons_self c l)
      show jsonStrBody (c :: (l ++ ['"'])) = true
      unfold jsonStrBody
      rw [if_neg h2, if_neg h3, ih (fun c hc => h c (List.mem_cons_of_mem _ hc))]
      simp [h1]

lemma noEscapeNeeded_spec (s : String) (h : noEscapeNeeded s = true) :
    ∀ c ∈ s.data, 0x20 ≤ c.toNat ∧ c ≠ '"' ∧ c ≠ '\\' := by
  intro c hc
  have hx := List.all_eq_true.mp h c hc
  simp only [Bool.and_eq_true, Bool.not_eq_true', decide_eq_true_eq,
    decide_eq_false_iff_not] at hx
  exact ⟨hx.1.1, hx.1.2, hx.2⟩

lemma quoted_data (s : String) : ("\"" ++ s ++ "\"").data = '"' :: (s.data ++ ['"']) := by
  cases s
  rfl

lemma quoted_valid_of_noEscape (s : String) (h : noEscapeNeeded s = true) :
    isValidJsonStringLit ("\"" ++ s ++ "\"") = true := by
  unfold isValidJsonStringLit
  rw [quoted_data]
  exact jsonStrBody_append_quote s.data (noEscapeNeeded_spec s h)

/-- C3 (amended): a non-empty string `startKey`/`endKey`/`key` given to
`AllDocs` is emitted as the raw string wrapped in double quotes with no
escaping; the wrapped value need not be a valid JSON string literal (see
the `a"b` counterexample), though it is one whenever the string contains
no quote, backslash or control character; `QueryView` JSON-encodes its
`any`-typed keys in full, so a string key becomes a properly escaped
quoted literal (`abc` → `"abc"`) and a numeric key stays bare (`5` → `5`). -/
theorem allDocs_view_key_encoding (s : String) (v : JsonVal) (hs : s ≠ "") :
    (allDocsQuery { AllDocsOptions.zero with Key := s }).lookup "key"
      = some ("\"" ++ s ++ "\"") ∧
    (allDocsQuery { AllDocsOptions.zero with StartKey := s }).lookup "startkey"
      = some ("\"" ++ s ++ "\"") ∧
    (allDocsQuery { AllDocsOptions.zero with EndKey := s }).lookup "endkey"
      = some ("\"" ++ s ++ "\"") ∧
    (noEscapeNeeded s = true → isValidJsonStringLit ("\"" ++ s ++ "\"") = true) ∧
    (queryViewQuery { ViewOptions.zero with Key := some v }).lookup "key"
      = some (jsonEncode v) ∧
    (queryViewQuery { ViewOptions.zero with StartKey := some v }).lookup "startkey"
      = some (jsonEncode v) ∧
    (queryViewQuery { ViewOptions.zero with EndKey := some v }).lookup "endkey"
      = some (jsonEncode v) ∧
    jsonEncode (.str "abc") = "\"abc\"" ∧
    isValidJsonStringLit (jsonEncode (.str "abc")) = true ∧
    jsonEncode (.num 5) = "5" := by
  have hkey : allDocsQuery { AllDocsOptions.zero with Key := s }
      = if s ≠ "" then [("key", "\"" ++ s ++ "\"")] else [] := rfl
  have hstart : allDocsQuery { AllDocsOptions.zero with StartKey := s }
      = if s ≠ "" then [("startkey", "\"" ++ s ++ "\"")] else [] := rfl
  have hend : allDocsQuery { AllDocsOptions.zero with EndKey := s }
      = if s ≠ "" then [("endkey", "\"" ++ s ++ "\"")] else [] := rfl
  refine ⟨?_, ?_, ?_, quoted_valid_of_noEscape s, rfl, rfl, rfl, rfl, rfl, rfl⟩
  · rw [hkey, if_pos hs]
    rfl
  · rw [hstart, if_pos hs]
    rfl
  · rw [hend, if_pos hs]
    rfl

/-- C3 (amended, witness): at the string key `abc` and the numeric key
`5` from the claim's examples. -/
theorem allDocs_view_key_encoding_witness :
    (allDocsQuery { AllDocsOptions.zero with Key := "abc" }).lookup "key"
      = some "\"abc\"" ∧
    isValidJsonStringLit "\"abc\"" = true ∧
    (queryViewQuery { ViewOptions.zero with Key := some (.num 5) }).lookup "key"
      = some "5" := by
  have h := allDocs_view_key_encoding "abc" (.num 5) (by decide)
  exact ⟨h.1, h.2.2.2.1 (by decide), h.2.2.2.2.1⟩

/-- C6: every single-entity fetch answers a 404 status with its distinct
not-found error — carrying the entity's identifier, independent of the
response body — and never with the generic structured-error envelope
path. -/
theorem get_404_distinct_not_found (dbName docID name raw : String)
    (json : Option JsonVal) :
    getDatabaseHandle dbName 404 raw json
      = .error (.notFound ("database not found: " ++ dbName)) ∧
    getDocumentHandle dbName docID 404 raw json
      = .error (.notFound ("document not found: " ++ dbName ++ "/" ++ docID)) ∧
    getUserHandle name 404 raw json
      = .error (.notFound ("user not found: " ++ name)) :=
  ⟨rfl, rfl, rfl⟩

/-- C7: `SetConfigurationValue` issues a PUT whose body is the JSON
string literal encoding of the value (`"5"` — quote, 5, quote — for the
value `5`), and a 200 response whose body is a JSON string returns that
decoded prior value. -/
theorem setConfigurationValue_put_json_literal
    (nodeName sectionName key value prior raw : String) :
    (setConfigurationValueRequest nodeName sectionName key value).method = "PUT" ∧
    (setConfigurationValueRequest nodeName sectionName key value).body
      = some (goEncodeString value) ∧
    goEncodeString "5" = "\"5\"" ∧
    setConfigurationValueHandle 200 raw (some (.str prior)) = .ok prior :=
  ⟨rfl, rfl, rfl, rfl⟩

/-- Is a result the verbatim raw-status-and-body error? -/
def isVerbatimErr {α : Type} : Except CouchErr α → Bool
  | .error (.httpStatus _ _) => true
  | _ => false

/-- C5 (counterexample): a 500 response whose body is the JSON object
`\x7b\x7d` — decodable JSON in which neither the `error` nor the `reason`
field is present — makes `CreateDatabase` return the structured error
with both fields empty, not the verbatim raw status and raw body the
claim requires for bodies without those fields. -/
theorem create_empty_envelope_not_verbatim :
    createDatabaseHandle 500 "\x7b\x7d" (some (.obj []))
      = .error (.opError "failed to create database" "" "") ∧
    isVerbatimErr (createDatabaseHandle 500 "\x7b\x7d" (some (.obj []))) = false :=
  ⟨rfl, rfl⟩

/-- C5 (amended): for the create/update operations, a status outside the
operation's success set is classified by whether the body decodes as a
JSON error envelope: when it does, the structured error carries the
decoded `error`/`reason` fields (in particular the server's values
whenever those fields are present, and the empty string when absent);
when the decode fails, the error carries the verbatim raw status and raw
body text. -/
theorem create_update_error_classification (status : Nat) (raw : String)
    (json : Option JsonVal) (e r : String)
    (hc : status ≠ 201 ∧ status ≠ 200) (hu : status ≠ 201 ∧ status ≠ 202) :
    (goUnmarshalErrorResponse json = none →
      createDatabaseHandle status raw json = .error (.httpStatus status raw) ∧
      updateDocumentHandle status raw json = .error (.httpStatus status raw)) ∧
    (∀ er : ErrorResponse, goUnmarshalErrorResponse json = some er →
      createDatabaseHandle status raw json
        = .error (.opError "failed to create database" er.Error er.Reason) ∧
      updateDocumentHandle status raw json
        = .error (.opError "failed to update document" er.Error er.Reason)) ∧
    goUnmarshalErrorResponse (some (.obj [("error", .str e), ("reason", .str r)]))
      = some ⟨e, r⟩ := by
  unfold createDatabaseHandle updateDocumentHandle classifyFailure
  rw [if_pos hc, if_pos hu]
  refine ⟨fun hnone => ?_, fun er her => ?_, rfl⟩
  · rw [hnone]
    exact ⟨rfl, rfl⟩
  · rw [her]
    exact ⟨rfl, rfl⟩

/-- C5 (amended, witness): at status 500 with a decodable envelope
carrying both fields, and at status 500 with a non-JSON body. -/
theorem create_update_error_classification_witness :
    createDatabaseHandle 500 "x" (some (.obj [("error", .str "conflict"),
        ("reason", .str "boom")]))
      = .error (.opError "failed to create database" "conflict" "boom") ∧
    updateDocumentHandle 500 "not json" none
      = .error (.httpStatus 500 "not json") := by
  have h1 := create_update_error_classification 500 "x"
    (some (.obj [("error", .str "conflict"), ("reason", .str "boom")])) "" ""
    (by decide) (by decide)
  have h2 := create_update_error_classification 500 "not json" none "" ""
    (by decide) (by decide)
  exact ⟨(h1.2.1 ⟨"conflict", "boom"⟩ rfl).1, (h2.1 rfl).2⟩

lemma bulkHandle_equiv (status : Nat) (raw : String) (json : Option JsonVal) :
    eraseOpRes (bulkInsertHandle status raw json)
      = eraseOpRes (bulkUpdateHandle status raw json) := by
  unfold bulkInsertHandle bulkUpdateHandle classifyFailure
  split
  · cases goUnmarshalErrorResponse json <;> rfl
  · cases goUnmarshalBulkDocs json <;> rfl

/-- C9: `BulkInsert` and `BulkUpdate` issue the identical request — the
same POST to the same `_bulk_docs` path with the same JSON body — accept
the same success statuses, and for every response produce the same
decoded result or the same error up to the operation-name prefix of the
message ("failed to bulk insert" vs "failed to bulk update"). -/
theorem bulk_insert_update_equivalent (dbName : String) (docs : List JsonVal)
    (transport : Transport) (status : Nat) (raw : String) (json : Option JsonVal) :
    bulkInsertRequest dbName docs = bulkUpdateRequest dbName docs ∧
    eraseOpRes (bulkInsertHandle status raw json)
      = eraseOpRes (bulkUpdateHandle status raw json) ∧
    eraseOpRes (bulkInsertFlow dbName docs transport)
      = eraseOpRes (bulkUpdateFlow dbName docs transport) := by
  refine ⟨rfl, bulkHandle_equiv status raw json, ?_⟩
  unfold bulkInsertFlow bulkUpdateFlow
  rw [show bulkUpdateRequest dbName docs = bulkInsertRequest dbName docs from rfl]
  cases transport (bulkInsertRequest dbName docs) with
  | error e => rfl
  | ok resp => exact bulkHandle_equiv resp.status resp.raw resp.json

/-- C8: `UpdateRoles` first fetches the current user document — a fetch
failure is propagated and nothing is issued — and the document it writes
carries the fetched salt, derived key, iteration count and password
scheme unchanged; `UpdatePassword` likewise first fetches the current
user and the update it issues carries the fetched roles unchanged. -/
theorem user_update_preserves_unchanged_fields (fetched : User)
    (name rev newPassword : String) (roles : List String) (e : CouchErr) :
    updateRolesIssuedDoc (.ok fetched) name rev roles
      = .ok (updateRolesDoc fetched name rev roles) ∧
    (updateRolesDoc fetched name rev roles).Salt = fetched.Salt ∧
    (updateRolesDoc fetched name rev roles).DerivedKey = fetched.DerivedKey ∧
    (updateRolesDoc fetched name rev roles).Iterations = fetched.Iterations ∧
    (updateRolesDoc fetched name rev roles).PasswordScheme = fetched.PasswordScheme ∧
    (updateRolesDoc fetched name rev roles).Roles = roles ∧
    updateRolesIssuedDoc (.error e) name rev roles
      = .error (.wrapped "failed to get user" e) ∧
    updatePasswordIssuedDoc (.ok fetched) name rev newPassword
      = .ok (updateUserDoc name rev (some newPassword) fetched.Roles) ∧
    (updateUserDoc name rev (some newPassword) fetched.Roles).Roles = fetched.Roles ∧
    (updateUserDoc name rev (some newPassword) fetched.Roles).Password = newPassword ∧
    updatePasswordIssuedDoc (.error e) name rev newPassword
      = .error (.wrapped "failed to get user" e) :=
  ⟨rfl, rfl, rfl, rfl, rfl, rfl, rfl, rfl, rfl, rfl, rfl⟩

/-- C1: evaluating `AllDocs` at a non-empty key list.  The POST request
it issues carries the keys in the JSON body `\x7b"keys":["a"]\x7d` and no
`keys` query parameter — but the exchange itself ends in a nil-pointer
dereference panic on every successful transport outcome: the keys branch
declares `resp, err :=` with fresh (shadowed) variables, so the outer
`resp` is still nil at the shared `defer resp.Body.Close()`, and the
operation never reads, classifies or decodes the response. -/
theorem allDocs_keys_branch_panics :
    allDocs "db" (some { AllDocsOptions.zero with Keys := ["a"] })
        (fun _ => .ok ⟨200, "\x7b\"offset\":0,\"rows\":[],\"total_rows\":0\x7d",
          some (.obj [("offset", .num 0), ("rows", .arr []), ("total_rows", .num 0)])⟩)
      = .nilDerefPanic ∧
    (allDocsKeysRequest "db" { AllDocsOptions.zero with Keys := ["a"] }).method
      = "POST" ∧
    (allDocsKeysRequest "db" { AllDocsOptions.zero with Keys := ["a"] }).body
      = some "\x7b\"keys\":[\"a\"]\x7d" ∧
    ((allDocsKeysRequest "db" { AllDocsOptions.zero with Keys := ["a"] }).query).lookup
      "keys" = none :=
  ⟨rfl, rfl, rfl, rfl⟩

end Couch
